import Mathlib

/-!
Verification of the subir upload/merge pipeline.

Shallow embedding of the core logic of the repository:
- base.py : ColumnType inference and name sanitizers
- upload.py : Uploader.upload_data_frame combination-strategy selection and
  staging-table lifecycle
- tag.py : tagging pipeline (EntityType, convert_id_columns, drop_duplicates,
  upload_tags including the purge step)

Pandas data frames are modelled as lists of rows; the warehouse layer is an
external collaborator, so stateful upload operations are modelled as traces of
the warehouse statements the code completes.
-/

namespace Subir

/-! ### base.py : ColumnType -/

/-- The ColumnType enum of base.py (lines 9-16). -/
inductive ColumnType
  | integer
  | decimal
  | date
  | short_text
  | medium_text
  | long_text
  | boolean
deriving DecidableEq, Repr

/-- The warehouse-type string attached to each enum member (the Python enum value).
This is the string Create Table renders for a column of this type. -/
def ColumnType.value : ColumnType → String
  | .integer => "bigint"
  | .decimal => "double precision"
  | .date => "date"
  | .short_text => "character varying(256)"
  | .medium_text => "character varying(8192)"
  | .long_text => "character varying(32768)"
  | .boolean => "boolean"

/-- All enum members, in declaration order. -/
def ColumnType.all : List ColumnType :=
  [.integer, .decimal, .date, .short_text, .medium_text, .long_text, .boolean]

/-- Python enum lookup by value: ColumnType(result) succeeds exactly when the
string equals the value of some member. -/
def ColumnType.ofValue (s : String) : Option ColumnType :=
  ColumnType.all.find? (fun t => t.value = s)

/-- ColumnType.from_query_result (base.py lines 39-52): exact enum-value match
first, then prefix fallbacks (Python str.find(x) == 0 is a prefix test),
re-raising the ValueError when nothing matches. -/
def ColumnType.from_query_result (result : String) : Except String ColumnType :=
  match ColumnType.ofValue result with
  | some t => Except.ok t
  | none =>
    if result.startsWith "character varying" || result.startsWith "USER-DEFINED" then
      Except.ok ColumnType.long_text
    else if result.startsWith "integer" then
      Except.ok ColumnType.integer
    else if result.startsWith "numeric" then
      Except.ok ColumnType.decimal
    else if result.startsWith "timestamp" then
      Except.ok ColumnType.date
    else
      Except.error result

/-! ### base.py : date-pattern matching and from_pd_column (object dtype)

A cell of an object-dtype pandas column read from CSV is either a string or
NaN; we model a cell as Option String with none for NaN. -/

/-- Consume exactly n ASCII digits from the front of a character list. -/
def consumeDigits : Nat → List Char → Option (List Char)
  | 0, s => some s
  | _ + 1, [] => none
  | n + 1, c :: rest => if c.isDigit then consumeDigits n rest else none

/-- A date separator character: slash or hyphen, as in the regexes of base.py. -/
def isDateSep (c : Char) : Bool := c = '/' || c = '-'

/-- Match a digit run whose length is one of the given counts, then continue.
This realizes the backtracking of a bounded regex repetition: the whole regex
matches iff some choice of run length lets the continuation match. -/
def matchCounts (counts : List Nat) (s : List Char) (k : List Char → Bool) : Bool :=
  counts.any (fun n =>
    match consumeDigits n s with
    | some rest => k rest
    | none => false)

/-- Prefix match of digits{a} sep digits{b} sep digits{c}, with each repetition
count drawn from the corresponding list (re.match anchors at the start only). -/
def matchDatePattern (a b c : List Nat) (s : List Char) : Bool :=
  matchCounts a s (fun s1 =>
    match s1 with
    | ch1 :: s2 =>
      isDateSep ch1 && matchCounts b s2 (fun s3 =>
        match s3 with
        | ch2 :: s4 => isDateSep ch2 && matchCounts c s4 (fun _ => true)
        | [] => false)
    | [] => false)

/-- A string matches one of the two date regexes of _pd_column_is_date
(base.py line 61): day/month/year or year-first. -/
def matchesDate (s : String) : Bool :=
  matchDatePattern [1, 2] [1, 2] [2, 3, 4] s.data ||
  matchDatePattern [2, 3, 4] [1, 2] [1, 2] s.data

/-- The loop of _pd_column_is_date (base.py lines 54-63), with the running
empty flag: falsy or NaN cells are skipped; a non-empty cell clears the flag
and must match one of the two patterns, else the loop returns False early;
at the end the result is "not empty". -/
def pdColumnIsDateLoop : List (Option String) → Bool → Bool
  | [], empty => !empty
  | none :: rest, empty => pdColumnIsDateLoop rest empty
  | some s :: rest, empty =>
    if s = "" then pdColumnIsDateLoop rest empty
    else if matchesDate s then pdColumnIsDateLoop rest false
    else false

/-- ColumnType._pd_column_is_date over a column of cells. -/
def pd_column_is_date (cells : List (Option String)) : Bool :=
  pdColumnIsDateLoop cells true

/-- Python str() of a cell: NaN prints as the three-character string nan. -/
def cellStr : Option String → String
  | none => "nan"
  | some s => s

/-- The maximum of len(str(value)) over the column (base.py line 28); only
used on non-empty columns, where folding max with 0 agrees with Python max. -/
def maxStrLen (cells : List (Option String)) : Nat :=
  (cells.map (fun c => (cellStr c).length)).foldr max 0

/-- The object-dtype branch of ColumnType.from_pd_column (base.py lines 27-35).
On an empty column the pandas max over no values is NaN, so both NaN comparisons
are false and the medium_text branch is taken. -/
def ColumnType.from_pd_column_object (cells : List (Option String)) : ColumnType :=
  if cells.isEmpty then ColumnType.medium_text
  else
    let length := maxStrLen cells
    if 2048 < length then ColumnType.long_text
    else if length < 64 then
      if pd_column_is_date cells then ColumnType.date else ColumnType.short_text
    else ColumnType.medium_text

/-! ### base.py : name sanitizers -/

/-- ASCII model of Python str.lower on one character. -/
def lowerChar (c : Char) : Char :=
  if 65 ≤ c.toNat ∧ c.toNat ≤ 90 then Char.ofNat (c.toNat + 32) else c

/-- Membership in the character class [a-z0-9_] of sanitized_relation_name. -/
def isRelationChar (c : Char) : Bool :=
  (decide (97 ≤ c.toNat) && decide (c.toNat ≤ 122)) ||
  (decide (48 ≤ c.toNat) && decide (c.toNat ≤ 57)) ||
  decide (c.toNat = 95)

/-- One character of sanitized_relation_name: lowercase, then replace anything
outside [a-z0-9_] with an underscore. -/
def sanitizeRelationChar (c : Char) : Char :=
  if isRelationChar (lowerChar c) then lowerChar c else '_'

/-- sanitized_relation_name (base.py lines 78-79): name.lower() then
re.sub of every character outside [a-z0-9_] with an underscore; both steps
act character-wise, so the composition maps each character independently. -/
def sanitized_relation_name (s : String) : String :=
  ⟨s.data.map sanitizeRelationChar⟩

/-! ### upload.py : combination-strategy selection (lines 110-118) -/

/-- The four combine queries Uploader.upload_data_frame can build, with the
constructor arguments the corresponding query classes receive. -/
inductive CombineStrategy
  | replaceAll : CombineStrategy
  | mergeReplace : List String → CombineStrategy
  | mergeKeyed : List String → List String → CombineStrategy
  | append : CombineStrategy
deriving DecidableEq, Repr

/-- The strategy-selection conditional of upload_data_frame (upload.py lines
110-118): replace, then merge_replace, then a truthiness test on
merge_column_names (non-empty list), else append; the keyed merge updates the
data-frame columns not in the join set, in data-frame column order. -/
def select_combine_query (replaceFlag mergeReplaceFlag : Bool)
    (merge_column_names df_columns : List String) : CombineStrategy :=
  if replaceFlag then CombineStrategy.replaceAll
  else if mergeReplaceFlag then CombineStrategy.mergeReplace merge_column_names
  else if !merge_column_names.isEmpty then
    CombineStrategy.mergeKeyed merge_column_names
      (df_columns.filter (fun c => decide (c ∉ merge_column_names)))
  else CombineStrategy.append

/-! ### upload.py / tag.py : staging-table lifecycle as statement traces

The warehouse layer is an external collaborator; an upload operation is
modelled by the trace of warehouse actions it completes.  A failing action
raises, so it and everything after it (outside a finally block) is absent
from the trace. -/

/-- The warehouse actions of Uploader.upload_data_frame after connecting. -/
inductive UStep
  | prepare
  | insert
  | combine
  | dropStaging
  | disconnect
deriving DecidableEq, Repr

/-- Trace of Uploader.upload_data_frame (upload.py lines 86-123) once the
staging table has been created (prepare succeeded): the body of the try block
runs insert then combine, stopping at the first failure, and the finally
block always runs the staging drop followed by disconnect. -/
def upload_data_frame_trace (insertOk combineOk : Bool) : List UStep :=
  [UStep.prepare] ++
  (if insertOk then
    [UStep.insert] ++ (if combineOk then [UStep.combine] else [])
  else []) ++
  [UStep.dropStaging, UStep.disconnect]

/-- The warehouse actions of upload_tags (tag.py lines 142-212), in program
order. -/
inductive TStep
  | tPrepare
  | tInsert
  | tCount
  | tBackup
  | tTruncate
  | tMerge
  | tPurgeDelete
  | tPurgeConvert
  | tDropStaging
  | tCommit
deriving DecidableEq, Repr

/-- The straight-line statement plan of upload_tags: prepare the staging table,
bulk-insert, count the target, back it up when non-empty (truncating when
replacing), merge, optionally purge (delete then convert empty subtags), drop
the staging table, commit.  There is no try/finally in upload_tags. -/
def upload_tags_plan (countNonzero replaceFlag purgeFlag : Bool) : List TStep :=
  [TStep.tPrepare, TStep.tInsert, TStep.tCount] ++
  (if countNonzero then
    [TStep.tBackup] ++ (if replaceFlag then [TStep.tTruncate] else [])
  else []) ++
  [TStep.tMerge] ++
  (if purgeFlag then [TStep.tPurgeDelete, TStep.tPurgeConvert] else []) ++
  [TStep.tDropStaging, TStep.tCommit]

/-- Trace of upload_tags when the step failAt (if any) raises: the statements
before it complete, the failing statement and everything after it do not,
because no handler or finally block is present. -/
def upload_tags_trace (countNonzero replaceFlag purgeFlag : Bool)
    (failAt : Option TStep) : List TStep :=
  match failAt with
  | none => upload_tags_plan countNonzero replaceFlag purgeFlag
  | some s =>
    (upload_tags_plan countNonzero replaceFlag purgeFlag).takeWhile
      (fun t => decide (t ≠ s))

/-! ### tag.py : EntityType (lines 11-64) -/

/-- The EntityType enum of tag.py. -/
inductive EntityType
  | ad
  | adset
  | campaign
deriving DecidableEq, Repr

/-- The Python enum value string of an EntityType. -/
def EntityType.value : EntityType → String
  | .ad => "ad"
  | .adset => "adset"
  | .campaign => "campaign"

/-- EntityType.from_tag_data (tag.py line 18), over the column names of the frame:
ad when ad_id is a column, else adset when adset_tag is a column, else
campaign. -/
def EntityType.from_tag_data (cols : List String) : EntityType :=
  if "ad_id" ∈ cols then EntityType.ad
  else if "adset_tag" ∈ cols then EntityType.adset
  else EntityType.campaign

/-- The keys of EntityType.identifier_columns (tag.py lines 20-25). -/
def EntityType.identifier_column_names (e : EntityType) : List String :=
  ["channel", e.value ++ "_id"]

/-- The keys of EntityType.columns (tag.py lines 27-35), in declaration
order. -/
def EntityType.column_names (e : EntityType) : List String :=
  ["company_identifier", "app"] ++ e.identifier_column_names ++
  [e.value ++ "_tag", e.value ++ "_subtag"]

/-- EntityType.id_column_names (tag.py lines 37-39). -/
def EntityType.id_column_names (e : EntityType) : List String :=
  [e.value ++ "_id"]

/-- EntityType.tag_column_names (tag.py lines 41-43). -/
def EntityType.tag_column_names (e : EntityType) : List String :=
  [e.value ++ "_tag", e.value ++ "_subtag"]

/-! ### tag.py : row frames

A tag frame read with dtype=object holds string cells and NaN cells; after
convert_id_columns an identifier cell holds a decoded JSON value (Python
None, the result of json.loads on null, is the jnull variant, and the float
nan that json.loads returns for NaN is the jnan variant). -/

/-- Decoded JSON values (atoms; this suffices for identifier cells). -/
inductive JValue
  | jnull
  | jnan
  | jbool : Bool → JValue
  | jnum : Int → JValue
  | jstr : String → JValue
deriving DecidableEq, Repr

/-- A cell of a tag frame: a string, NaN, or a decoded JSON value. -/
inductive CellV
  | cstr : String → CellV
  | cna : CellV
  | cval : JValue → CellV
deriving DecidableEq, Repr

/-- pd.isna on a cell: NaN is missing, and among decoded values Python None
(from JSON null) and float nan (from JSON NaN) are missing. -/
def isNACell : CellV → Bool
  | CellV.cna => true
  | CellV.cval JValue.jnull => true
  | CellV.cval JValue.jnan => true
  | _ => false

/-- A data frame: named columns and rows of cells aligned positionally with
the column list. -/
structure TagFrame where
  cols : List String
  rows : List (List CellV)
deriving DecidableEq, Repr

/-- Position of a column name in a column list (leftmost match). -/
def colIndex : List String → String → Option Nat
  | [], _ => none
  | c :: rest, name =>
    if c = name then some 0 else (colIndex rest name).map (· + 1)

/-- The cell of a row under a named column, if the column exists and the row
is long enough. -/
def cellAt (cols : List String) (r : List CellV) (name : String) : Option CellV :=
  (colIndex cols name).bind (fun i => r.get? i)

/-- The key a pandas subset-based operation extracts from a row: the tuple of
cells under the column names of the subset. -/
def rowKey (cols sub : List String) (r : List CellV) : List (Option CellV) :=
  sub.map (cellAt cols r)

/-! ### pandas drop_duplicates / duplicated primitives -/

/-- Keep-first deduplication with the set of already seen keys accumulated:
a row whose key was seen before is removed, a fresh key is recorded and its
row kept. -/
def dedupKeepFirstAux {α β : Type} [DecidableEq β] (key : α → β)
    (seen : List β) : List α → List α
  | [] => []
  | x :: xs =>
    if key x ∈ seen then dedupKeepFirstAux key seen xs
    else x :: dedupKeepFirstAux key (key x :: seen) xs

/-- pandas drop_duplicates with keep equal to first: a row is kept exactly
when no earlier row has the same key. -/
def dedupKeepFirst {α β : Type} [DecidableEq β] (key : α → β) (l : List α) :
    List α :=
  dedupKeepFirstAux key [] l

/-- pandas drop_duplicates with keep equal to last: a row is kept exactly when
no later row has the same key. -/
def dedupKeepLast {α β : Type} [DecidableEq β] (key : α → β) : List α → List α
  | [] => []
  | x :: xs =>
    if xs.any (fun y => decide (key y = key x)) then dedupKeepLast key xs
    else x :: dedupKeepLast key xs

/-- Number of rows of the list sharing the key of the given row. -/
def keyCount {α β : Type} [DecidableEq β] (key : α → β) (l : List α) (x : α) : Nat :=
  l.countP (fun y => decide (key y = key x))

/-- pandas drop_duplicates with keep equal to False: only rows whose key is
unique in the list survive. -/
def dropAllDupKeys {α β : Type} [DecidableEq β] (key : α → β) (l : List α) : List α :=
  l.filter (fun x => decide (keyCount key l x ≤ 1))

/-- The rows flagged by duplicated over the identifier subset with keep equal
to False (tag.py lines 96-97): rows whose identifier key occurs at least
twice. -/
def conflictRows (e : EntityType) (cols : List String)
    (rows : List (List CellV)) : List (List CellV) :=
  rows.filter (fun r =>
    decide (2 ≤ keyCount (rowKey cols e.identifier_column_names) rows r))

/-! ### tag.py : convert_id_columns (lines 66-69)

json.loads is an external library function; it is a parameter decode of the
embedding.  The lambda applies decode to string cells and yields Python None
(jnull) for any non-string cell; a decode failure raises out of the whole
operation.  After the column is rewritten, rows whose new cell is missing
(pd.isna) are dropped. -/

/-- Whether an Except carries a value. -/
def exceptIsOk {ε α : Type} : Except ε α → Bool
  | Except.ok _ => true
  | Except.error _ => false

/-- The value of an Except, when present. -/
def exceptToOption {ε α : Type} : Except ε α → Option α
  | Except.ok a => some a
  | Except.error _ => none

/-- The cell of a row at a column position; positions beyond the row read as
missing. -/
def cellAtPos : List CellV → Nat → CellV
  | [], _ => CellV.cna
  | c :: _, 0 => c
  | _ :: rest, n + 1 => cellAtPos rest n

/-- The conversion lambda of convert_id_columns applied to one cell:
json.loads on a string cell, Python None otherwise. -/
def convertCell (decode : String → Except String JValue) : CellV → Except String CellV
  | CellV.cstr s => (decode s).map CellV.cval
  | _ => Except.ok (CellV.cval JValue.jnull)

/-- Rewrite the cell at position i of one row through the conversion lambda. -/
def convertRow (decode : String → Except String JValue) (i : Nat)
    (r : List CellV) : Except String (List CellV) :=
  (convertCell decode (cellAtPos r i)).map (fun v => r.set i v)

/-- Rewrite the cell at position i of every row, propagating the first decode
failure. -/
def convertRowsAux (decode : String → Except String JValue) (i : Nat) :
    List (List CellV) → Except String (List (List CellV))
  | [] => Except.ok []
  | r :: rs => do
    let r2 ← convertRow decode i r
    let rest ← convertRowsAux decode i rs
    Except.ok (r2 :: rest)

/-- One iteration of the convert_id_columns loop: rewrite the named column,
then drop the rows whose rewritten cell is missing. -/
def convertOneColumn (decode : String → Except String JValue) (name : String)
    (f : TagFrame) : Except String TagFrame :=
  match colIndex f.cols name with
  | none => Except.error "KeyError"
  | some i =>
    (convertRowsAux decode i f.rows).map (fun rows =>
      TagFrame.mk f.cols (rows.filter (fun r => !(isNACell (cellAtPos r i)))))

/-- convert_id_columns (tag.py lines 66-69): iterate the per-column rewrite
and drop over the given column names. -/
def convert_id_columns (decode : String → Except String JValue) :
    List String → TagFrame → Except String TagFrame
  | [], f => Except.ok f
  | n :: ns, f => do
    let f2 ← convertOneColumn decode n f
    convert_id_columns decode ns f2

/-- Model of Python json.loads restricted to the JSON literals appearing in
the concrete frames below; on any other input json.loads raises, modelled as
an error result. -/
def jsonLoadsModel (s : String) : Except String JValue :=
  if s = "null" then Except.ok JValue.jnull
  else if s = "true" then Except.ok (JValue.jbool true)
  else if s = "false" then Except.ok (JValue.jbool false)
  else if s = "NaN" then Except.ok JValue.jnan
  else if s = "\"\"" then Except.ok (JValue.jstr "")
  else if s = "123" then Except.ok (JValue.jnum 123)
  else if s = "1" then Except.ok (JValue.jnum 1)
  else Except.error ("Expecting value: " ++ s)

/-! ### tag.py : drop_duplicates (lines 89-132)

The interactive prompt answer is an external input, modelled by the res
parameter; report writing only touches copies of the frame and the
filesystem, so it does not appear in the returned frame.  The attribute
access duplicate_rows.ad_id raises when the frame has no ad_id column. -/

/-- The answer of the operator to the conflict-resolution prompt. -/
inductive Resolution
  | first
  | last
  | skip
  | abort
deriving DecidableEq, Repr

/-- drop_duplicates (tag.py lines 89-132): drop exact duplicates over
identifier plus tag columns keeping the first, detect identifier conflicts,
return early when there are none; interactively, access the ad_id column of
the conflict frame (raising when absent), then apply the prompted resolution;
non-interactively resolve with last.  The Bool result is False exactly on an
interactive abort. -/
def drop_duplicates (e : EntityType) (res : Resolution) (interactive : Bool)
    (f : TagFrame) : Except String (Bool × TagFrame) :=
  let identKey := rowKey f.cols e.identifier_column_names
  let d1 := dedupKeepFirst
    (rowKey f.cols (e.identifier_column_names ++ e.tag_column_names)) f.rows
  let dups := conflictRows e f.cols d1
  if dups.isEmpty then Except.ok (true, TagFrame.mk f.cols d1)
  else if interactive then
    if "ad_id" ∈ f.cols then
      match res with
      | Resolution.abort => Except.ok (false, TagFrame.mk f.cols d1)
      | Resolution.first =>
        Except.ok (true, TagFrame.mk f.cols (dedupKeepFirst identKey d1))
      | Resolution.last =>
        Except.ok (true, TagFrame.mk f.cols (dedupKeepLast identKey d1))
      | Resolution.skip =>
        Except.ok (true, TagFrame.mk f.cols (dropAllDupKeys identKey d1))
    else Except.error "AttributeError: ad_id"
  else Except.ok (true, TagFrame.mk f.cols (dedupKeepLast identKey d1))

/-! ### tag.py : the purge step of upload_tags (lines 188-208)

The purge acts on the target table: rows carry their tag and subtag values
(null as none) and an arbitrary payload for the remaining columns. -/

/-- A target-table row: the two tag columns plus the rest of the row. -/
structure TargetRow (α : Type) where
  tag : Option String
  subtag : Option String
  rest : α
deriving DecidableEq

/-- The purge condition on one column value: equal to the empty string or
null. -/
def isEmptyTagVal : Option String → Bool
  | none => true
  | some s => decide (s = "")

/-- The purge step: delete rows whose tag and subtag are both empty or null,
then set remaining empty-string subtags to null. -/
def purge_step {α : Type} (t : List (TargetRow α)) : List (TargetRow α) :=
  (t.filter (fun r => !(isEmptyTagVal r.tag && isEmptyTagVal r.subtag))).map
    (fun r => if r.subtag = some "" then { r with subtag := none } else r)

end Subir

namespace Subir

/-! ### Theorems -/

/-- Claim C1 (counterexample): the claim that every upload operation drops its
staging table on every exit path fails for upload_tags: with a non-empty
target, no replace and no purge, a failure of the merge statement leaves a
trace in which the staging table was created but never dropped. -/
theorem upload_tags_merge_failure_skips_staging_drop :
    TStep.tPrepare ∈ upload_tags_trace true false false (some TStep.tMerge) ∧
    TStep.tDropStaging ∉ upload_tags_trace true false false (some TStep.tMerge) := by
  decide

/-- Claim C1 (amended): in Uploader.upload_data_frame the trace always ends
with the staging drop followed by the disconnect, whatever succeeds or fails
among insert and combine; in upload_tags the staging drop is reached on full
success, but a failure at any planned statement other than the drop itself or
the final commit produces a trace without the staging drop. -/
theorem staging_drop_guarantees :
    (∀ insertOk combineOk : Bool, ∃ pre,
      upload_data_frame_trace insertOk combineOk =
        pre ++ [UStep.dropStaging, UStep.disconnect]) ∧
    (∀ countNonzero replaceFlag purgeFlag : Bool,
      TStep.tDropStaging ∈ upload_tags_trace countNonzero replaceFlag purgeFlag none) ∧
    (∀ (countNonzero replaceFlag purgeFlag : Bool) (s : TStep),
      s ∈ upload_tags_plan countNonzero replaceFlag purgeFlag →
      s ≠ TStep.tDropStaging → s ≠ TStep.tCommit →
      TStep.tDropStaging ∉
        upload_tags_trace countNonzero replaceFlag purgeFlag (some s)) := by
  refine ⟨?_, ?_, ?_⟩
  · intro insertOk combineOk
    cases insertOk <;> cases combineOk <;> exact ⟨_, rfl⟩
  · intro c r p
    cases c <;> cases r <;> cases p <;> decide
  · intro c r p s h1 h2 h3
    revert h1 h2 h3
    cases c <;> cases r <;> cases p <;> cases s <;> decide

/-- Claim C1 (witness): a concrete failure point, the merge statement of
upload_tags, at which the staging table is provably not dropped. -/
theorem staging_drop_guarantees_witness :
    TStep.tDropStaging ∉ upload_tags_trace false true true (some TStep.tMerge) :=
  staging_drop_guarantees.2.2 false true true TStep.tMerge
    (by decide) (by decide) (by decide)

/-- Claim C2: upload_data_frame selects exactly one combination strategy, as a
total function of the flags, with priority replace over merge_replace over a
non-empty merge column list (whose keyed merge updates exactly the data-frame
columns outside the join set) over plain append. -/
theorem select_combine_query_priority :
    ∀ (r mr : Bool) (mcn cols : List String),
      (r = true → select_combine_query r mr mcn cols = CombineStrategy.replaceAll) ∧
      (r = false → mr = true →
        select_combine_query r mr mcn cols = CombineStrategy.mergeReplace mcn) ∧
      (r = false → mr = false → mcn ≠ [] →
        select_combine_query r mr mcn cols =
          CombineStrategy.mergeKeyed mcn
            (cols.filter (fun c => decide (c ∉ mcn)))) ∧
      (r = false → mr = false → mcn = [] →
        select_combine_query r mr mcn cols = CombineStrategy.append) := by
  intro r mr mcn cols
  refine ⟨?_, ?_, ?_, ?_⟩
  · intro hr; subst hr; rfl
  · intro hr hmr; subst hr; subst hmr; rfl
  · intro hr hmr hmcn; subst hr; subst hmr
    simp [select_combine_query, List.isEmpty_iff, hmcn]
  · intro hr hmr hmcn; subst hr; subst hmr; subst hmcn; rfl

/-- Claim C2 (witness): a concrete keyed-merge selection, with the update
columns computed as the data-frame columns outside the join set. -/
theorem select_combine_query_priority_witness :
    select_combine_query false false ["id"] ["id", "name", "amount"] =
      CombineStrategy.mergeKeyed ["id"] ["name", "amount"] := by
  have h := (select_combine_query_priority false false ["id"]
    ["id", "name", "amount"]).2.2.1 rfl rfl (by decide)
  rw [h]
  rfl

/-- Claim C10: EntityType auto-detection is total and ordered: ad when ad_id
is a column, otherwise adset when adset_tag is a column (adset_id is never
consulted), otherwise campaign. -/
theorem from_tag_data_total_ordered :
    ∀ cols : List String,
      ("ad_id" ∈ cols → EntityType.from_tag_data cols = EntityType.ad) ∧
      ("ad_id" ∉ cols → "adset_tag" ∈ cols →
        EntityType.from_tag_data cols = EntityType.adset) ∧
      ("ad_id" ∉ cols → "adset_tag" ∉ cols →
        EntityType.from_tag_data cols = EntityType.campaign) := by
  intro cols
  refine ⟨?_, ?_, ?_⟩
  · intro h; simp [EntityType.from_tag_data, h]
  · intro h1 h2; simp [EntityType.from_tag_data, h1, h2]
  · intro h1 h2; simp [EntityType.from_tag_data, h1, h2]

/-- Claim C10 (witness): a frame whose only identifying column is adset_id is
classified as campaign, showing adset_id is not consulted. -/
theorem from_tag_data_total_ordered_witness :
    EntityType.from_tag_data ["channel", "adset_id", "adset_subtag"] =
      EntityType.campaign :=
  (from_tag_data_total_ordered ["channel", "adset_id", "adset_subtag"]).2.2
    (by decide) (by decide)

/-- A character inside the class the sanitizer keeps is not an uppercase
letter, so lowercasing leaves it unchanged. -/
theorem lowerChar_of_relationChar (d : Char) (h : isRelationChar d = true) :
    lowerChar d = d := by
  simp only [isRelationChar, Bool.or_eq_true, Bool.and_eq_true,
    decide_eq_true_eq] at h
  unfold lowerChar
  rw [if_neg]
  omega

/-- Sanitizing a single character is idempotent. -/
theorem sanitizeRelationChar_idem (c : Char) :
    sanitizeRelationChar (sanitizeRelationChar c) = sanitizeRelationChar c := by
  by_cases hk : isRelationChar (lowerChar c) = true
  · have h1 : sanitizeRelationChar c = lowerChar c := by
      unfold sanitizeRelationChar; rw [if_pos hk]
    rw [h1]
    unfold sanitizeRelationChar
    rw [lowerChar_of_relationChar _ hk, if_pos hk]
  · have h1 : sanitizeRelationChar c = '_' := by
      unfold sanitizeRelationChar; rw [if_neg hk]
    rw [h1]
    decide

/-- Claim C8: sanitized_relation_name is idempotent: applying it to its own
output returns the same string. -/
theorem sanitized_relation_name_idempotent :
    ∀ s : String,
      sanitized_relation_name (sanitized_relation_name s) =
        sanitized_relation_name s := by
  intro s
  show String.mk ((s.data.map sanitizeRelationChar).map sanitizeRelationChar) =
    String.mk (s.data.map sanitizeRelationChar)
  have h : sanitizeRelationChar ∘ sanitizeRelationChar = sanitizeRelationChar :=
    funext sanitizeRelationChar_idem
  rw [List.map_map, h]

/-- Every row surviving a purge fails the deletion condition and carries no
empty-string subtag. -/
theorem purge_step_mem {α : Type} {t : List (TargetRow α)} {r : TargetRow α}
    (h : r ∈ purge_step t) :
    (!(isEmptyTagVal r.tag && isEmptyTagVal r.subtag)) = true ∧
      r.subtag ≠ some "" := by
  unfold purge_step at h
  rw [List.mem_map] at h
  obtain ⟨r0, hr0, rfl⟩ := h
  rw [List.mem_filter] at hr0
  obtain ⟨-, hp⟩ := hr0
  by_cases hs : r0.subtag = some ""
  · rw [if_pos hs]
    rw [hs] at hp
    simp only [isEmptyTagVal, Bool.not_eq_true'] at hp
    simp only [decide_True, Bool.and_true] at hp
    refine ⟨?_, by simp⟩
    simp [isEmptyTagVal, hp]
  · rw [if_neg hs]
    exact ⟨hp, hs⟩

/-- Claim C6: the purge step is idempotent: applying it twice yields the same
target table state as applying it once, and on an already purged table the
deletion sweeps away no row and the subtag update touches no row. -/
theorem purge_step_idempotent :
    ∀ (α : Type) (t : List (TargetRow α)),
      purge_step (purge_step t) = purge_step t ∧
      (purge_step t).filter
        (fun r => !(isEmptyTagVal r.tag && isEmptyTagVal r.subtag)) =
        purge_step t ∧
      (purge_step t).filter (fun r => decide (r.subtag = some "")) = [] := by
  intro α t
  have hfilter : (purge_step t).filter
      (fun r => !(isEmptyTagVal r.tag && isEmptyTagVal r.subtag)) = purge_step t :=
    List.filter_eq_self.mpr (fun r hr => (purge_step_mem hr).1)
  refine ⟨?_, hfilter, ?_⟩
  · show ((purge_step t).filter
      (fun r => !(isEmptyTagVal r.tag && isEmptyTagVal r.subtag))).map
      (fun r => if r.subtag = some "" then { r with subtag := none } else r) =
      purge_step t
    rw [hfilter]
    have hmap : ∀ r ∈ purge_step t,
        (if r.subtag = some "" then { r with subtag := none } else r) = r := by
      intro r hr
      exact if_neg (purge_step_mem hr).2
    rw [List.map_congr_left hmap]
    simp
  · exact List.filter_eq_nil_iff.mpr
      (fun r hr => by simpa using (purge_step_mem hr).2)

/-- Characterization of the _pd_column_is_date loop: it succeeds exactly when
every non-empty cell matches a date pattern and, unless the empty flag was
already cleared, some non-empty cell exists. -/
theorem pdColumnIsDateLoop_spec :
    ∀ (cells : List (Option String)) (e : Bool),
      pdColumnIsDateLoop cells e = true ↔
        ((∀ s : String, some s ∈ cells → s ≠ "" → matchesDate s = true) ∧
         (e = false ∨ ∃ s : String, some s ∈ cells ∧ s ≠ "")) := by
  intro cells
  induction cells with
  | nil =>
    intro e
    cases e <;> simp [pdColumnIsDateLoop]
  | cons c rest ih =>
    intro e
    cases c with
    | none =>
      simp only [pdColumnIsDateLoop, ih e, List.mem_cons]
      constructor
      · rintro ⟨hall, hex⟩
        refine ⟨fun s hmem hne => ?_, ?_⟩
        · rcases hmem with h | h
          · exact absurd h (by simp)
          · exact hall s h hne
        · rcases hex with h | ⟨s, hmem, hne⟩
          · exact Or.inl h
          · exact Or.inr ⟨s, Or.inr hmem, hne⟩
      · rintro ⟨hall, hex⟩
        refine ⟨fun s hmem hne => hall s (Or.inr hmem) hne, ?_⟩
        rcases hex with h | ⟨s, hmem, hne⟩
        · exact Or.inl h
        · rcases hmem with h | h
          · exact absurd h (by simp)
          · exact Or.inr ⟨s, h, hne⟩
    | some s =>
      by_cases hs : s = ""
      · subst hs
        have hL : pdColumnIsDateLoop (some "" :: rest) e =
            pdColumnIsDateLoop rest e := by
          simp [pdColumnIsDateLoop]
        rw [hL, ih e]
        constructor
        · rintro ⟨hall, hex⟩
          refine ⟨fun t hmem hne => ?_, ?_⟩
          · rcases List.mem_cons.mp hmem with h | h
            · exact absurd (Option.some.inj h) hne
            · exact hall t h hne
          · rcases hex with h | ⟨t, hmem, hne⟩
            · exact Or.inl h
            · exact Or.inr ⟨t, List.mem_cons_of_mem _ hmem, hne⟩
        · rintro ⟨hall, hex⟩
          refine ⟨fun t hmem hne => hall t (List.mem_cons_of_mem _ hmem) hne, ?_⟩
          rcases hex with h | ⟨t, hmem, hne⟩
          · exact Or.inl h
          · rcases List.mem_cons.mp hmem with h | h
            · exact absurd (Option.some.inj h) hne
            · exact Or.inr ⟨t, h, hne⟩
      · by_cases hm : matchesDate s = true
        · have hL : pdColumnIsDateLoop (some s :: rest) e =
              pdColumnIsDateLoop rest false := by
            simp [pdColumnIsDateLoop, hs, hm]
          rw [hL, ih false]
          constructor
          · rintro ⟨hall, -⟩
            refine ⟨fun t hmem hne => ?_,
              Or.inr ⟨s, List.mem_cons_self _ _, hs⟩⟩
            rcases List.mem_cons.mp hmem with h | h
            · rw [Option.some.inj h]; exact hm
            · exact hall t h hne
          · rintro ⟨hall, -⟩
            exact ⟨fun t hmem hne =>
              hall t (List.mem_cons_of_mem _ hmem) hne, Or.inl rfl⟩
        · have hL : pdColumnIsDateLoop (some s :: rest) e = false := by
            simp [pdColumnIsDateLoop, hs, hm]
          rw [hL]
          refine iff_of_false (by simp) ?_
          rintro ⟨hall, -⟩
          exact hm (hall s (List.mem_cons_self _ _) hs)

/-- The column maximum is bounded by any pointwise bound on rendered cell
lengths. -/
theorem maxStrLen_le {cells : List (Option String)} {n : Nat}
    (h : ∀ c ∈ cells, (cellStr c).length ≤ n) : maxStrLen cells ≤ n := by
  induction cells with
  | nil => simp [maxStrLen]
  | cons c rest ih =>
    have hc : (cellStr c).length ≤ n := h c (List.mem_cons_self _ _)
    have hrest : maxStrLen rest ≤ n :=
      ih (fun d hd => h d (List.mem_cons_of_mem _ hd))
    simp only [maxStrLen, List.map_cons, List.foldr_cons]
    exact max_le hc hrest

/-- Claim C7: on a non-numeric, non-boolean column the inferred type is date
exactly when the maximum rendered length is below 64, some non-empty value
exists, and every non-empty value matches one of the two date patterns; a
non-empty column consisting only of missing or empty-string cells is
classified as short text, never date. -/
theorem from_pd_column_object_date_iff :
    ∀ cells : List (Option String),
      (ColumnType.from_pd_column_object cells = ColumnType.date ↔
        (maxStrLen cells < 64 ∧
         (∃ s : String, some s ∈ cells ∧ s ≠ "") ∧
         (∀ s : String, some s ∈ cells → s ≠ "" → matchesDate s = true))) ∧
      (cells ≠ [] →
        (∀ c ∈ cells, c = none ∨ c = some "") →
        ColumnType.from_pd_column_object cells = ColumnType.short_text) := by
  intro cells
  constructor
  · by_cases hnil : cells.isEmpty
    · rw [List.isEmpty_iff] at hnil
      subst hnil
      refine iff_of_false (by decide) ?_
      rintro ⟨-, ⟨s, hmem, -⟩, -⟩
      exact absurd hmem (by simp)
    · unfold ColumnType.from_pd_column_object
      rw [if_neg hnil]
      by_cases hlong : 2048 < maxStrLen cells
      · rw [if_pos hlong]
        refine iff_of_false (by decide) ?_
        rintro ⟨hlen, -, -⟩
        omega
      · rw [if_neg hlong]
        by_cases hshort : maxStrLen cells < 64
        · rw [if_pos hshort]
          by_cases hdate : pd_column_is_date cells = true
          · rw [if_pos hdate]
            rw [pd_column_is_date, pdColumnIsDateLoop_spec] at hdate
            rcases hdate.2 with h | hex
            · exact absurd h (by simp)
            · exact iff_of_true rfl ⟨hshort, hex, hdate.1⟩
          · rw [if_neg hdate]
            refine iff_of_false (by decide) ?_
            rintro ⟨-, hex, hall⟩
            exact hdate ((pdColumnIsDateLoop_spec cells true).mpr
              ⟨hall, Or.inr hex⟩)
        · rw [if_neg hshort]
          refine iff_of_false (by decide) ?_
          rintro ⟨hlen, -, -⟩
          exact hshort hlen
  · intro hne hempty
    have hnil : cells.isEmpty = false := by
      cases cells with
      | nil => exact absurd rfl hne
      | cons c rest => rfl
    have hbound : maxStrLen cells ≤ 3 := by
      refine maxStrLen_le (fun c hc => ?_)
      rcases hempty c hc with h | h <;> subst h <;> decide
    have hnodate : pd_column_is_date cells = false := by
      rw [Bool.eq_false_iff]
      intro h
      rw [pd_column_is_date, pdColumnIsDateLoop_spec] at h
      rcases h.2 with h2 | ⟨s, hmem, hne2⟩
      · exact absurd h2 (by simp)
      · rcases hempty (some s) hmem with h3 | h3
        · exact absurd h3 (by simp)
        · exact hne2 (Option.some.inj h3)
    unfold ColumnType.from_pd_column_object
    rw [if_neg (by simp [hnil]), if_neg (by omega), if_pos (by omega),
      if_neg (by simp [hnodate])]

/-- Claim C7 (witness): a non-empty column of only missing and empty-string
cells is short text, and a concrete date column is inferred as date. -/
theorem from_pd_column_object_date_iff_witness :
    ColumnType.from_pd_column_object [none, some ""] = ColumnType.short_text ∧
    ColumnType.from_pd_column_object [some "12/31/1999", none] =
      ColumnType.date := by
  constructor
  · exact (from_pd_column_object_date_iff [none, some ""]).2
      (by decide) (by decide)
  · refine (from_pd_column_object_date_iff [some "12/31/1999", none]).1.mpr
      ⟨by decide, ⟨"12/31/1999", by decide, by decide⟩, ?_⟩
    intro s hmem hne
    rcases List.mem_cons.mp hmem with h | h
    · rw [Option.some.inj h]; decide
    · simp at h

/-- Keep-last deduplication leaves a list unchanged when no key occurs more
than once. -/
theorem dedupKeepLast_eq_self {α β : Type} [DecidableEq β] (key : α → β) :
    ∀ l : List α, (∀ x ∈ l, keyCount key l x ≤ 1) → dedupKeepLast key l = l := by
  intro l
  induction l with
  | nil => intro _; rfl
  | cons x xs ih =>
    intro h
    have hx : keyCount key (x :: xs) x ≤ 1 := h x (List.mem_cons_self _ _)
    have hcount : xs.countP (fun y => decide (key y = key x)) = 0 := by
      unfold keyCount at hx
      rw [List.countP_cons] at hx
      simp only [decide_eq_true_eq, if_true] at hx
      omega
    have hany : xs.any (fun y => decide (key y = key x)) = false := by
      rw [List.any_eq_false]
      intro y hy
      have := List.countP_eq_zero.mp hcount y hy
      simpa using this
    have hrest : ∀ y ∈ xs, keyCount key xs y ≤ 1 := by
      intro y hy
      have h1 := h y (List.mem_cons_of_mem _ hy)
      unfold keyCount at h1 ⊢
      rw [List.countP_cons] at h1
      omega
    rw [dedupKeepLast, hany]
    simp only [Bool.false_eq_true, if_false]
    rw [ih hrest]

/-- Claim C5: in non-interactive mode drop_duplicates first removes exact
duplicates over identifier plus tag columns keeping the first occurrence,
then keeps exactly the last occurrence of each identifier key among the
remaining rows, and reports success. -/
theorem drop_duplicates_noninteractive :
    ∀ (e : EntityType) (res : Resolution) (f : TagFrame),
      drop_duplicates e res false f =
        Except.ok (true, TagFrame.mk f.cols
          (dedupKeepLast (rowKey f.cols e.identifier_column_names)
            (dedupKeepFirst
              (rowKey f.cols (e.identifier_column_names ++ e.tag_column_names))
              f.rows))) := by
  intro e res f
  unfold drop_duplicates
  set d1 := dedupKeepFirst
    (rowKey f.cols (e.identifier_column_names ++ e.tag_column_names)) f.rows
    with hd1
  by_cases h : (conflictRows e f.cols d1).isEmpty
  · rw [if_pos h]
    have hself : dedupKeepLast (rowKey f.cols e.identifier_column_names) d1 = d1 := by
      refine dedupKeepLast_eq_self _ _ (fun r hr => ?_)
      rw [List.isEmpty_iff] at h
      have := List.filter_eq_nil_iff.mp h r hr
      simp only [decide_eq_true_eq] at this
      omega
    rw [hself]
  · rw [if_neg h]
    simp only [Bool.false_eq_true, if_false]

/-- Claim C9: the adset and campaign entities declare no ad_id column, and in
interactive mode, whenever conflicting identifier rows remain after exact
deduplication, drop_duplicates on a frame without an ad_id column fails on
the unconditional ad_id attribute access before any resolution is applied. -/
theorem drop_duplicates_interactive_missing_ad_id :
    ("ad_id" ∉ EntityType.adset.column_names ∧
     "ad_id" ∉ EntityType.campaign.column_names) ∧
    ∀ (e : EntityType) (res : Resolution) (f : TagFrame),
      "ad_id" ∉ f.cols →
      (conflictRows e f.cols
        (dedupKeepFirst
          (rowKey f.cols (e.identifier_column_names ++ e.tag_column_names))
          f.rows)).isEmpty = false →
      drop_duplicates e res true f = Except.error "AttributeError: ad_id" := by
  refine ⟨by decide, ?_⟩
  intro e res f hcols hconf
  unfold drop_duplicates
  dsimp only
  rw [hconf]
  simp only [Bool.false_eq_true, if_false, if_true]
  rw [if_neg hcols]

/-- Claim C9 (witness): a concrete adset frame with two rows sharing channel
and adset_id but carrying different tags makes interactive drop_duplicates
fail on the missing ad_id column. -/
theorem drop_duplicates_interactive_missing_ad_id_witness :
    drop_duplicates EntityType.adset Resolution.last true
      (TagFrame.mk
        ["company_identifier", "app", "channel", "adset_id", "adset_tag",
          "adset_subtag"]
        [[CellV.cstr "co", CellV.cstr "app", CellV.cstr "fb",
            CellV.cval (JValue.jnum 1), CellV.cstr "t1", CellV.cstr "s1"],
         [CellV.cstr "co", CellV.cstr "app", CellV.cstr "fb",
            CellV.cval (JValue.jnum 1), CellV.cstr "t2", CellV.cstr "s2"]]) =
      Except.error "AttributeError: ad_id" :=
  drop_duplicates_interactive_missing_ad_id.2 EntityType.adset Resolution.last
    _ (by decide) (by decide)

/-- Setting and re-reading the same position of a row yields the written cell
when the position is in range and missing otherwise. -/
theorem cellAtPos_set :
    ∀ (l : List CellV) (i : Nat) (v : CellV),
      cellAtPos (l.set i v) i = if i < l.length then v else CellV.cna := by
  intro l
  induction l with
  | nil =>
    intro i v
    simp [cellAtPos]
  | cons x xs ih =>
    intro i v
    cases i with
    | zero => simp [cellAtPos]
    | succ j => simp [cellAtPos, ih j v, Nat.succ_lt_succ_iff]

/-- A position beyond the row reads as missing. -/
theorem cellAtPos_ge :
    ∀ (l : List CellV) (i : Nat), l.length ≤ i → cellAtPos l i = CellV.cna := by
  intro l
  induction l with
  | nil => intro i _; cases i <;> rfl
  | cons x xs ih =>
    intro i h
    cases i with
    | zero => simp at h
    | succ j => exact ih j (by simpa using h)

/-- An Except observed as ok carries some value. -/
theorem exceptIsOk_exists {ε α : Type} {e : Except ε α}
    (h : exceptIsOk e = true) : ∃ a, e = Except.ok a := by
  cases e with
  | ok a => exact ⟨a, rfl⟩
  | error b => simp [exceptIsOk] at h

/-- When every cell of the rewritten column decodes, the rewrite-then-drop of
one convert_id_columns iteration keeps exactly the rows whose decoded cell is
not missing, with the decoded value written in place. -/
theorem convertRowsAux_filter_ok (decode : String → Except String JValue)
    (i : Nat) :
    ∀ rows : List (List CellV),
      (∀ r ∈ rows, exceptIsOk (convertCell decode (cellAtPos r i)) = true) →
      (convertRowsAux decode i rows).map
        (fun rs => rs.filter (fun r => !(isNACell (cellAtPos r i)))) =
        Except.ok (rows.filterMap (fun r =>
          (exceptToOption (convertCell decode (cellAtPos r i))).bind
            (fun v => if isNACell v then none else some (r.set i v)))) := by
  intro rows
  induction rows with
  | nil => intro _; rfl
  | cons r rs ih =>
    intro h
    obtain ⟨v, hv⟩ := exceptIsOk_exists (h r (List.mem_cons_self _ _))
    have hrest := ih (fun r2 hr2 => h r2 (List.mem_cons_of_mem _ hr2))
    cases haux : convertRowsAux decode i rs with
    | error msg =>
      rw [haux] at hrest
      exact absurd hrest (by simp [Except.map])
    | ok rest =>
      rw [haux] at hrest
      have hfrest : rest.filter (fun r => !(isNACell (cellAtPos r i))) =
          rs.filterMap (fun r =>
            (exceptToOption (convertCell decode (cellAtPos r i))).bind
              (fun v => if isNACell v then none else some (r.set i v))) := by
        simpa [Except.map] using hrest
      have hrow : convertRow decode i r = Except.ok (r.set i v) := by
        rw [convertRow, hv]; rfl
      have hL : convertRowsAux decode i (r :: rs) =
          Except.ok (r.set i v :: rest) := by
        rw [convertRowsAux, hrow, haux]; rfl
      have hcell : cellAtPos (r.set i v) i =
          if i < r.length then v else CellV.cna := cellAtPos_set r i v
      rw [hL]
      simp only [Except.map, List.filter_cons, List.filterMap_cons]
      by_cases hlt : i < r.length
      · rw [if_pos hlt] at hcell
        by_cases hna : isNACell v = true
        · simp [hcell, hna, hfrest, hv, exceptToOption]
        · simp [hcell, hna, hfrest, hv, exceptToOption]
      · rw [if_neg hlt] at hcell
        have hvnull : v = CellV.cval JValue.jnull := by
          rw [cellAtPos_ge r i (by omega)] at hv
          exact (Except.ok.inj hv).symm
        subst hvnull
        simpa [hcell, hv, exceptToOption, isNACell] using hfrest

/-- Claim C4 (counterexample): the claim that rows failing to decode or
decoding to an empty value are dropped fails on the code: a cell that is not
valid JSON makes the whole conversion raise instead of dropping the row, and
a cell decoding to the empty string is kept, not dropped. -/
theorem convert_id_columns_claim_false :
    convert_id_columns jsonLoadsModel ["ad_id"]
      (TagFrame.mk ["ad_id"] [[CellV.cstr "notjson"]]) =
      Except.error "Expecting value: notjson" ∧
    convert_id_columns jsonLoadsModel ["ad_id"]
      (TagFrame.mk ["ad_id"] [[CellV.cstr "\"\""]]) =
      Except.ok (TagFrame.mk ["ad_id"] [[CellV.cval (JValue.jstr "")]]) :=
  ⟨rfl, rfl⟩

/-- Claim C4 (amended): when every identifier cell of the column decodes
successfully, convert_id_columns keeps exactly the rows whose decoded value
is not missing (not Python None from JSON null, not NaN; non-string cells
decode to None), writing the decoded value into the identifier column; a
decode failure instead aborts the whole conversion with an error. -/
theorem convert_id_columns_success_characterization :
    ∀ (decode : String → Except String JValue) (name : String)
      (cols : List String) (i : Nat) (rows : List (List CellV)),
      colIndex cols name = some i →
      (∀ r ∈ rows, exceptIsOk (convertCell decode (cellAtPos r i)) = true) →
      convert_id_columns decode [name] (TagFrame.mk cols rows) =
        Except.ok (TagFrame.mk cols (rows.filterMap (fun r =>
          (exceptToOption (convertCell decode (cellAtPos r i))).bind
            (fun v => if isNACell v then none else some (r.set i v))))) := by
  intro decode name cols i rows hcol h
  have hone := convertRowsAux_filter_ok decode i rows h
  cases haux : convertRowsAux decode i rows with
  | error msg =>
    rw [haux] at hone
    exact absurd hone (by simp [Except.map])
  | ok rest =>
    rw [haux] at hone
    have hfrest : rest.filter (fun r => !(isNACell (cellAtPos r i))) =
        rows.filterMap (fun r =>
          (exceptToOption (convertCell decode (cellAtPos r i))).bind
            (fun v => if isNACell v then none else some (r.set i v))) := by
      simpa [Except.map] using hone
    have honecol : convertOneColumn decode name (TagFrame.mk cols rows) =
        Except.ok (TagFrame.mk cols
          (rest.filter (fun r => !(isNACell (cellAtPos r i))))) := by
      rw [convertOneColumn]
      dsimp only
      rw [hcol]
      dsimp only
      rw [haux]
      rfl
    show (do
      let f2 ← convertOneColumn decode name (TagFrame.mk cols rows)
      convert_id_columns decode [] f2) = _
    rw [honecol, hfrest]
    rfl

/-- Claim C4 (witness): a concrete column in which null decodes to a missing
value and is dropped, a NaN cell becomes None and is dropped, and a numeric
identifier is kept with its decoded value in place. -/
theorem convert_id_columns_success_characterization_witness :
    convert_id_columns jsonLoadsModel ["ad_id"]
      (TagFrame.mk ["ad_id"]
        [[CellV.cstr "null"], [CellV.cstr "123"], [CellV.cna]]) =
      Except.ok (TagFrame.mk ["ad_id"] [[CellV.cval (JValue.jnum 123)]]) := by
  have h := convert_id_columns_success_characterization jsonLoadsModel "ad_id"
    ["ad_id"] 0 [[CellV.cstr "null"], [CellV.cstr "123"], [CellV.cna]]
    (by decide) (by decide)
  exact h.trans (by rfl)

/-- Claim C3: for every ColumnType t, parsing the warehouse-type string that
Create Table renders for t (the enum value string) with from_query_result
returns t itself: the round trip holds for all seven variants, including the
three character-varying text types. -/
theorem from_query_result_render_round_trip :
    ∀ t : ColumnType, ColumnType.from_query_result t.value = Except.ok t := by
  intro t
  cases t <;> rfl

end Subir
